import Mathlib

/-!
Shallow embedding of the `balanced-direction` Rust crate
(src/balance.rs, src/conversions.rs, src/operations.rs, src/ternary.rs,
src/path.rs).

Modelling conventions:
* Rust `i8` coordinates are modelled as `Int`.  The only place the source
  can leave the `i8` range is the accumulator of `Path::to_vector`, which
  is therefore modelled in both overflow profiles of the Rust build: the
  unchecked profile wraps each addition two's-complement (`wrapI8`), the
  checked profile panics on an addition whose result leaves the range
  (`to_vector_checked`).  Every other operation keeps its values in
  `{-1, 0, 1}` or, for `Path::from_vector`, moves each component
  monotonically toward zero, so unbounded `Int` is exact there (bounds
  appear as explicit hypotheses where a claim states them).
* Rust `f64` angles are modelled as `ℚ`.  Every floating-point operation
  `from_angle` performs on any input (fmod by 360, the subtraction
  `360.0 - angle` for `angle ∈ (180, 360)`, negation, equality tests
  against the eight canonical constants) is exact in IEEE-754 double
  precision, so rational arithmetic reproduces the `f64` computation
  exactly.
* A Rust `panic!` is modelled as `Except Err`, with the error constructor
  taken from the failure taxonomy of the specification (§7); functions that
  cannot panic stay pure.
-/

deriving instance DecidableEq for Except

namespace BalancedDirection

/-- Error taxonomy of the specification (§7), one constructor per `panic!`
site of the source, plus `Overflow` for the implicit integer-overflow
panic of the `i8` additions in `Path::to_vector` under an
overflow-checked build (a Rust-level panic outside the §7 taxonomy). -/
inductive Err where
  | InvalidCoordinate
  | InvalidRank
  | InvalidAngle
  | UndefinedAngle
  | UncertainValue
  | LengthMismatch
  | Overflow
deriving DecidableEq

/-- The nine positions of the 3x3 grid (src/balance.rs, `enum Balance`). -/
inductive Balance where
  | TopLeft
  | Top
  | TopRight
  | Left
  | Center
  | Right
  | BottomLeft
  | Bottom
  | BottomRight
deriving DecidableEq, Fintype

namespace Balance

/-- Row membership test `Balance::has_top` (src/balance.rs). -/
def has_top : Balance → Bool
  | .Top | .TopLeft | .TopRight => true
  | _ => false

/-- Row membership test `Balance::has_bottom` (src/balance.rs). -/
def has_bottom : Balance → Bool
  | .Bottom | .BottomLeft | .BottomRight => true
  | _ => false

/-- Column membership test `Balance::has_left` (src/balance.rs). -/
def has_left : Balance → Bool
  | .Left | .TopLeft | .BottomLeft => true
  | _ => false

/-- Column membership test `Balance::has_right` (src/balance.rs). -/
def has_right : Balance → Bool
  | .Right | .TopRight | .BottomRight => true
  | _ => false

/-- X coordinate `Balance::x` (src/balance.rs). -/
def x (self : Balance) : Int :=
  if self.has_left then -1 else if self.has_right then 1 else 0

/-- Y coordinate `Balance::y` (src/balance.rs). -/
def y (self : Balance) : Int :=
  if self.has_top then -1 else if self.has_bottom then 1 else 0

/-- Predicate `Balance::is_corner` (src/balance.rs). -/
def is_corner : Balance → Bool
  | .TopLeft | .TopRight | .BottomLeft | .BottomRight => true
  | _ => false

/-- Predicate `Balance::is_edge` (src/balance.rs). -/
def is_edge : Balance → Bool
  | .Top | .Bottom | .Left | .Right => true
  | _ => false

/-- Rank conversion `Balance::to_value` (src/conversions.rs). -/
def to_value : Balance → Int
  | .TopLeft => -4
  | .Top => -3
  | .TopRight => -2
  | .Left => -1
  | .Center => 0
  | .Right => 1
  | .BottomLeft => 2
  | .Bottom => 3
  | .BottomRight => 4

/-- Rank conversion `Balance::from_value` (src/conversions.rs); the
`panic!("Invalid value")` default arm is the `InvalidRank` failure of the
specification's taxonomy. -/
def from_value (value : Int) : Except Err Balance :=
  if value = -4 then .ok .TopLeft
  else if value = -3 then .ok .Top
  else if value = -2 then .ok .TopRight
  else if value = -1 then .ok .Left
  else if value = 0 then .ok .Center
  else if value = 1 then .ok .Right
  else if value = 2 then .ok .BottomLeft
  else if value = 3 then .ok .Bottom
  else if value = 4 then .ok .BottomRight
  else .error .InvalidRank

/-- Vector conversion `Balance::to_vector` (src/conversions.rs). -/
def to_vector (self : Balance) : Int × Int :=
  (self.x, self.y)

/-- Vector conversion `Balance::from_vector` (src/conversions.rs); the
`panic!("Invalid vector")` default arm is the `InvalidCoordinate` failure
of the specification's taxonomy. -/
def from_vector (a b : Int) : Except Err Balance :=
  if a = -1 ∧ b = -1 then .ok .TopLeft
  else if a = 0 ∧ b = -1 then .ok .Top
  else if a = 1 ∧ b = -1 then .ok .TopRight
  else if a = -1 ∧ b = 0 then .ok .Left
  else if a = 0 ∧ b = 0 then .ok .Center
  else if a = 1 ∧ b = 0 then .ok .Right
  else if a = -1 ∧ b = 1 then .ok .BottomLeft
  else if a = 0 ∧ b = 1 then .ok .Bottom
  else if a = 1 ∧ b = 1 then .ok .BottomRight
  else .error .InvalidCoordinate

/-- Angle constant `Balance::EAST` (src/conversions.rs). -/
def EAST : ℚ := 0
/-- Angle constant `Balance::NORTH_EAST` (src/conversions.rs). -/
def NORTH_EAST : ℚ := 45
/-- Angle constant `Balance::NORTH` (src/conversions.rs). -/
def NORTH : ℚ := 90
/-- Angle constant `Balance::NORTH_WEST` (src/conversions.rs). -/
def NORTH_WEST : ℚ := 135
/-- Angle constant `Balance::WEST` (src/conversions.rs). -/
def WEST : ℚ := 180
/-- Angle constant `Balance::SOUTH_EAST` (src/conversions.rs). -/
def SOUTH_EAST : ℚ := -45
/-- Angle constant `Balance::SOUTH` (src/conversions.rs). -/
def SOUTH : ℚ := -90
/-- Angle constant `Balance::SOUTH_WEST` (src/conversions.rs). -/
def SOUTH_WEST : ℚ := -135

/-- Angle conversion `Balance::to_angle` (src/conversions.rs); the panic on
`Center` is the `UndefinedAngle` failure of the specification's taxonomy. -/
def to_angle : Balance → Except Err ℚ
  | .TopLeft => .ok NORTH_WEST
  | .Top => .ok NORTH
  | .TopRight => .ok NORTH_EAST
  | .Left => .ok WEST
  | .Right => .ok EAST
  | .BottomLeft => .ok SOUTH_WEST
  | .Bottom => .ok SOUTH
  | .BottomRight => .ok SOUTH_EAST
  | .Center => .error .UndefinedAngle

end Balance

/-- Truncation toward zero of a rational, the integer part used by the
IEEE-754 remainder: Rust's `%` on `f64` computes `fmod`, i.e.
`x - y * trunc(x / y)` exactly. -/
def truncQ (q : ℚ) : Int :=
  if 0 ≤ q then ⌊q⌋ else ⌈q⌉

/-- Rust's `angle % 360.0` on `f64` (exact: `fmod` is always exact in
IEEE-754), as used at the top of `Balance::from_angle`. -/
def fmod360 (x : ℚ) : ℚ :=
  x - 360 * truncQ (x / 360)

namespace Balance

/-- Angle parsing `Balance::from_angle` (src/conversions.rs): reduce by
`% 360.0`, fold a remainder above `180.0` down by `360.0` (written
`-(360.0 - angle)` in the source), then match the result against the eight
canonical constants in source order; the default `panic!` arm is the
`InvalidAngle` failure of the specification's taxonomy. -/
def from_angle (angle : ℚ) : Except Err Balance :=
  let a0 := fmod360 angle
  let a := if 180 < a0 then -(360 - a0) else a0
  if a = EAST then .ok .Right
  else if a = NORTH_EAST then .ok .TopRight
  else if a = NORTH then .ok .Top
  else if a = NORTH_WEST then .ok .TopLeft
  else if a = WEST then .ok .Left
  else if a = SOUTH_WEST then .ok .BottomLeft
  else if a = SOUTH then .ok .Bottom
  else if a = SOUTH_EAST then .ok .BottomRight
  else .error .InvalidAngle

end Balance

/-- Clamp as Rust's `i8::clamp(lo, hi)` computes it (src/operations.rs uses
`.clamp(-1, 1)`). -/
def iclamp (v lo hi : Int) : Int :=
  if v < lo then lo else if v > hi then hi else v

namespace Balance

/-- Clamped upward move `Balance::up` (src/operations.rs). -/
def up (self : Balance) : Except Err Balance :=
  let (x, y) := self.to_vector
  from_vector x (if y = -1 then -1 else y - 1)

/-- Clamped downward move `Balance::down` (src/operations.rs). -/
def down (self : Balance) : Except Err Balance :=
  let (x, y) := self.to_vector
  from_vector x (if y = 1 then 1 else y + 1)

/-- Clamped leftward move `Balance::left` (src/operations.rs). -/
def left (self : Balance) : Except Err Balance :=
  let (x, y) := self.to_vector
  from_vector (if x = -1 then -1 else x - 1) y

/-- Clamped rightward move `Balance::right` (src/operations.rs). -/
def right (self : Balance) : Except Err Balance :=
  let (x, y) := self.to_vector
  from_vector (if x = 1 then 1 else x + 1) y

/-- Wrapping upward move `Balance::up_wrap` (src/operations.rs). -/
def up_wrap (self : Balance) : Except Err Balance :=
  let (x, y) := self.to_vector
  from_vector x (if y = -1 then 1 else y - 1)

/-- Wrapping downward move `Balance::down_wrap` (src/operations.rs). -/
def down_wrap (self : Balance) : Except Err Balance :=
  let (x, y) := self.to_vector
  from_vector x (if y = 1 then -1 else y + 1)

/-- Wrapping leftward move `Balance::left_wrap` (src/operations.rs). -/
def left_wrap (self : Balance) : Except Err Balance :=
  let (x, y) := self.to_vector
  from_vector (if x = -1 then 1 else x - 1) y

/-- Wrapping rightward move `Balance::right_wrap` (src/operations.rs). -/
def right_wrap (self : Balance) : Except Err Balance :=
  let (x, y) := self.to_vector
  from_vector (if x = 1 then -1 else x + 1) y

/-- Saturating addition, the `Add` impl for `Balance` (src/operations.rs). -/
def add (self rhs : Balance) : Except Err Balance :=
  let (x1, y1) := self.to_vector
  let (x2, y2) := rhs.to_vector
  from_vector (iclamp (x1 + x2) (-1) 1) (iclamp (y1 + y2) (-1) 1)

/-- Predicate `Balance::is_true` (src/ternary.rs). -/
def is_true : Balance → Bool
  | .BottomRight => true
  | _ => false

/-- Predicate `Balance::is_false` (src/ternary.rs). -/
def is_false : Balance → Bool
  | .TopLeft => true
  | _ => false

/-- Predicate `Balance::is_certain` (src/ternary.rs). -/
def is_certain : Balance → Bool
  | .BottomRight | .TopLeft => true
  | _ => false

/-- Predicate `Balance::is_uncertain` (src/ternary.rs). -/
def is_uncertain (self : Balance) : Bool :=
  !self.is_certain

/-- Boolean conversion `Balance::to_bool` (src/ternary.rs): `is_true ||`
short-circuits, then `is_false` yields `false`, and the remaining panic is
the `UncertainValue` failure of the specification's taxonomy. -/
def to_bool (self : Balance) : Except Err Bool :=
  if self.is_true then .ok true
  else if self.is_false then .ok false
  else .error .UncertainValue

end Balance

/-- Two's-complement wrap of an integer into the `i8` range
`[-128, 127]`, the effect of an overflowing `i8` addition in a Rust build
without overflow checks. -/
def wrapI8 (v : Int) : Int :=
  (v + 128) % 256 - 128

/-- Sequence of movements, `struct Path` (src/path.rs). -/
structure Path where
  raw : List Balance
deriving DecidableEq

namespace Path

/-- Length `Path::len` (src/path.rs). -/
def len (self : Path) : Nat :=
  self.raw.length

/-- Element access `Path::get` (src/path.rs). -/
def get (self : Path) (index : Nat) : Option Balance :=
  self.raw.get? index

/-- Cumulative vector `Path::to_vector` (src/path.rs): left fold of the
componentwise sums starting from `(0, 0)`, mirroring the source's mutable
`i8` accumulation loop.  Each `+=` is an `i8` addition; in a build
without overflow checks (the release default) a sum leaving `[-128, 127]`
wraps two's-complement, which `wrapI8` models exactly. -/
def to_vector (self : Path) : Int × Int :=
  self.raw.foldl (fun acc movement =>
    (wrapI8 (acc.1 + movement.x), wrapI8 (acc.2 + movement.y))) (0, 0)

/-- Accumulation loop of `Path::to_vector` under an overflow-checked Rust
build: each `+=` panics (modelled as `Err.Overflow`) when its result
leaves the `i8` range, instead of wrapping. -/
def toVectorCheckedLoop : List Balance → Int → Int → Except Err (Int × Int)
  | [], x, y => .ok (x, y)
  | movement :: rest, x, y =>
    if -128 ≤ x + movement.x ∧ x + movement.x ≤ 127 ∧
        -128 ≤ y + movement.y ∧ y + movement.y ≤ 127 then
      toVectorCheckedLoop rest (x + movement.x) (y + movement.y)
    else .error .Overflow

/-- Overflow-checked profile of `Path::to_vector` (src/path.rs). -/
def to_vector_checked (self : Path) : Except Err (Int × Int) :=
  toVectorCheckedLoop self.raw 0 0

/-- Loop body of `Path::from_vector` (src/path.rs): while `(x, y)` is not
`(0, 0)`, push `Balance::from_vector(x.signum(), y.signum())` and subtract
the signs.  The fallible `Balance::from_vector` call is propagated. -/
def fromVectorLoop (x y : Int) : Except Err (List Balance) :=
  if x = 0 ∧ y = 0 then .ok []
  else do
    let step ← Balance.from_vector x.sign y.sign
    let rest ← fromVectorLoop (x - x.sign) (y - y.sign)
    pure (step :: rest)
termination_by x.natAbs + y.natAbs
decreasing_by
  rcases lt_trichotomy x 0 with hx | hx | hx <;>
    rcases lt_trichotomy y 0 with hy | hy | hy <;>
      simp_all [Int.sign_eq_neg_one_iff_neg.mpr, Int.sign_eq_one_iff_pos.mpr,
        Int.sign_eq_neg_one_of_neg, Int.sign_eq_one_of_pos] <;>
      omega

/-- Vector decomposition `Path::from_vector` (src/path.rs). -/
def from_vector (x y : Int) : Except Err Path :=
  (fromVectorLoop x y).map Path.mk

/-- Normalization `Path::normalized` (src/path.rs), in the wrapping
(unchecked) overflow profile of `to_vector`. -/
def normalized (self : Path) : Except Err Path :=
  let (x, y) := self.to_vector
  from_vector x y

/-- Normalization `Path::normalized` (src/path.rs), in the
overflow-checked profile: a panic of the `to_vector` accumulation
propagates. -/
def normalized_checked (self : Path) : Except Err Path :=
  (self.to_vector_checked).bind fun v => from_vector v.1 v.2

/-- Pairwise combination `Path::each_zip` (src/path.rs): the loop over
`self.raw.iter().zip(other.raw.iter())` pushing `f(a, b)`, which stops at
the shorter sequence. -/
def each_zip (self : Path) (f : Balance → Balance → Balance) (other : Path) : Path :=
  ⟨(self.raw.zip other.raw).map fun ab => f ab.1 ab.2⟩

end Path

/-- Modelled from the claim's wording for `from_angle` (C1): the unique
representative of the input angle modulo 360 inside the interval
`(-180, 180]`. -/
def specNormalize (a : ℚ) : ℚ :=
  a - 360 * ⌈(a - 180) / 360⌉

/-- Normalization the source actually performs at the top of
`Balance::from_angle`: the sign-preserving remainder modulo 360, with
remainders above 180 folded down by 360 (and remainders at or below -180
left as they are). -/
def codeNormalize (a : ℚ) : ℚ :=
  let a0 := fmod360 a
  if 180 < a0 then -(360 - a0) else a0

theorem wrapI8_range (v : Int) : -128 ≤ wrapI8 v ∧ wrapI8 v ≤ 127 := by
  unfold wrapI8
  omega

theorem wrapI8_eq_self (v : Int) (h1 : -128 ≤ v) (h2 : v ≤ 127) :
    wrapI8 v = v := by
  unfold wrapI8
  omega

/-- Interval facts about one step of `Path::from_vector`: the sign of a
component stays between `min 0 x` and `max 0 x`, and taking the step
shrinks that interval. -/
theorem sign_step_bounds (x : Int) :
    min 0 x ≤ x.sign ∧ x.sign ≤ max 0 x ∧
    min 0 x ≤ x.sign + min 0 (x - x.sign) ∧
    x.sign + max 0 (x - x.sign) ≤ max 0 x := by
  rcases lt_trichotomy x 0 with h | h | h
  · rw [Int.sign_eq_neg_one_of_neg h]; omega
  · subst h; simp
  · rw [Int.sign_eq_one_of_pos h]; omega

theorem natAbs_sub_sign (x : Int) : (x - x.sign).natAbs = x.natAbs - 1 := by
  rcases lt_trichotomy x 0 with h | h | h
  · rw [Int.sign_eq_neg_one_of_neg h]; omega
  · subst h; simp
  · rw [Int.sign_eq_one_of_pos h]; omega

theorem from_vector_sign (x y : Int) (h0 : ¬(x = 0 ∧ y = 0)) :
    ∃ b, Balance.from_vector x.sign y.sign = .ok b ∧
      b.x = x.sign ∧ b.y = y.sign := by
  rcases lt_trichotomy x 0 with hx | hx | hx <;>
    rcases lt_trichotomy y 0 with hy | hy | hy
  · rw [Int.sign_eq_neg_one_of_neg hx, Int.sign_eq_neg_one_of_neg hy]
    exact ⟨.TopLeft, by decide, by decide, by decide⟩
  · subst hy; rw [Int.sign_eq_neg_one_of_neg hx, Int.sign_zero]
    exact ⟨.Left, by decide, by decide, by decide⟩
  · rw [Int.sign_eq_neg_one_of_neg hx, Int.sign_eq_one_of_pos hy]
    exact ⟨.BottomLeft, by decide, by decide, by decide⟩
  · subst hx; rw [Int.sign_zero, Int.sign_eq_neg_one_of_neg hy]
    exact ⟨.Top, by decide, by decide, by decide⟩
  · exact absurd ⟨hx, hy⟩ h0
  · subst hx; rw [Int.sign_zero, Int.sign_eq_one_of_pos hy]
    exact ⟨.Bottom, by decide, by decide, by decide⟩
  · rw [Int.sign_eq_one_of_pos hx, Int.sign_eq_neg_one_of_neg hy]
    exact ⟨.TopRight, by decide, by decide, by decide⟩
  · subst hy; rw [Int.sign_eq_one_of_pos hx, Int.sign_zero]
    exact ⟨.Right, by decide, by decide, by decide⟩
  · rw [Int.sign_eq_one_of_pos hx, Int.sign_eq_one_of_pos hy]
    exact ⟨.BottomRight, by decide, by decide, by decide⟩

/-- Core correctness of the `Path::from_vector` loop: it always succeeds,
its length is the maximum of the absolute values of the components, and
accumulating its output from any starting accumulator whose excursions
stay inside the `i8` range adds exactly `(x, y)` — with no wrap and no
overflow panic, in either overflow profile. -/
theorem fromVectorLoop_spec (x y : Int) :
    ∃ l, Path.fromVectorLoop x y = .ok l ∧
      l.length = max x.natAbs y.natAbs ∧
      ∀ a b : Int, -128 ≤ a + min 0 x → a + max 0 x ≤ 127 →
        -128 ≤ b + min 0 y → b + max 0 y ≤ 127 →
        l.foldl (fun acc movement =>
            (wrapI8 (acc.1 + movement.x), wrapI8 (acc.2 + movement.y))) (a, b)
          = (a + x, b + y) ∧
        Path.toVectorCheckedLoop l a b = .ok (a + x, b + y) := by
  generalize hn : x.natAbs + y.natAbs = n
  induction n using Nat.strong_induction_on generalizing x y with
  | _ n ih =>
  by_cases h0 : x = 0 ∧ y = 0
  · obtain ⟨hx, hy⟩ := h0
    subst hx; subst hy
    refine ⟨[], by rw [Path.fromVectorLoop]; simp, by simp, ?_⟩
    intro a b _ _ _ _
    constructor
    · simp
    · simp [Path.toVectorCheckedLoop]
  · obtain ⟨b0, hb, hbx, hby⟩ := from_vector_sign x y h0
    have habs_x := natAbs_sub_sign x
    have habs_y := natAbs_sub_sign y
    have hm : (x - x.sign).natAbs + (y - y.sign).natAbs < n := by omega
    obtain ⟨l', hl', hlen', hfold'⟩ := ih _ hm (x - x.sign) (y - y.sign) rfl
    refine ⟨b0 :: l', ?_, ?_, ?_⟩
    · rw [Path.fromVectorLoop, if_neg h0]
      rw [hb, hl']
      rfl
    · simp only [List.length_cons, hlen']
      omega
    · intro a b ha1 ha2 hb1 hb2
      have hsx := sign_step_bounds x
      have hsy := sign_step_bounds y
      have hax : -128 ≤ a + x.sign ∧ a + x.sign ≤ 127 := by omega
      have hay : -128 ≤ b + y.sign ∧ b + y.sign ≤ 127 := by omega
      have hrec := hfold' (a + x.sign) (b + y.sign)
        (by omega) (by omega) (by omega) (by omega)
      have hfinal_x : a + x.sign + (x - x.sign) = a + x := by ring
      have hfinal_y : b + y.sign + (y - y.sign) = b + y := by ring
      constructor
      · rw [List.foldl_cons, hbx, hby,
          wrapI8_eq_self (a + x.sign) hax.1 hax.2,
          wrapI8_eq_self (b + y.sign) hay.1 hay.2]
        rw [hrec.1, hfinal_x, hfinal_y]
      · rw [Path.toVectorCheckedLoop, hbx, hby,
          if_pos ⟨hax.1, hax.2, hay.1, hay.2⟩]
        rw [hrec.2, hfinal_x, hfinal_y]

/-- Correctness of `Path::from_vector`, packaged at the `Path` level: on
an `i8`-range input vector the resulting path reproduces it under both
overflow profiles of `to_vector`. -/
theorem from_vector_path_spec (x y : Int)
    (hx1 : -128 ≤ x) (hx2 : x ≤ 127) (hy1 : -128 ≤ y) (hy2 : y ≤ 127) :
    ∃ p : Path, Path.from_vector x y = .ok p ∧ p.to_vector = (x, y) ∧
      p.to_vector_checked = .ok (x, y) ∧
      p.len = max x.natAbs y.natAbs := by
  obtain ⟨l, hl, hlen, hfold⟩ := fromVectorLoop_spec x y
  have h := hfold 0 0 (by omega) (by omega) (by omega) (by omega)
  refine ⟨⟨l⟩, ?_, ?_, ?_, hlen⟩
  · rw [Path.from_vector, hl]; rfl
  · show l.foldl _ (0, 0) = (x, y)
    rw [h.1]; simp
  · show Path.toVectorCheckedLoop l 0 0 = .ok (x, y)
    rw [h.2]; simp

theorem zip_map_get (f : Balance → Balance → Balance) :
    ∀ (l1 l2 : List Balance) (i : Nat) (a b : Balance),
      l1.get? i = some a → l2.get? i = some b →
      ((l1.zip l2).map fun ab => f ab.1 ab.2).get? i = some (f a b) := by
  intro l1
  induction l1 with
  | nil => intro l2 i a b h1 _; simp at h1
  | cons m rest ih =>
    intro l2 i a b h1 h2
    cases l2 with
    | nil => simp at h2
    | cons m2 rest2 =>
      cases i with
      | zero =>
        rw [List.get?_cons_zero] at h1 h2
        obtain rfl : m = a := by injection h1
        obtain rfl : m2 = b := by injection h2
        rfl
      | succ j =>
        rw [List.get?_cons_succ] at h1 h2
        rw [List.zip_cons_cons, List.map_cons, List.get?_cons_succ]
        exact ih rest2 j a b h1 h2

/-- C5: addition of two positions never fails, each coordinate of the
result is the componentwise sum clamped to the interval `[-1, 1]` (hence
always in `{-1, 0, 1}`), and in particular `Right + Right == Right`. -/
theorem add_clamps (p q : Balance) :
    ∃ r, Balance.add p q = .ok r ∧
      r.x = iclamp (p.x + q.x) (-1) 1 ∧ r.y = iclamp (p.y + q.y) (-1) 1 ∧
      (r.x = -1 ∨ r.x = 0 ∨ r.x = 1) ∧ (r.y = -1 ∨ r.y = 0 ∨ r.y = 1) ∧
      Balance.add .Right .Right = .ok .Right := by
  revert p q; decide

/-- C6: each wrap operator succeeds, changes only its own axis, wraps to
the opposite extreme at the boundary and moves one step otherwise; in
particular `p.up_wrap().down_wrap() == p` for every position. -/
theorem wrap_ops_spec (p : Balance) :
    (Balance.up_wrap p).bind Balance.down_wrap = .ok p ∧
    (∃ q, Balance.up_wrap p = .ok q ∧ q.x = p.x ∧
      (p.y = -1 → q.y = 1) ∧ (p.y ≠ -1 → q.y = p.y - 1)) ∧
    (∃ q, Balance.down_wrap p = .ok q ∧ q.x = p.x ∧
      (p.y = 1 → q.y = -1) ∧ (p.y ≠ 1 → q.y = p.y + 1)) ∧
    (∃ q, Balance.left_wrap p = .ok q ∧ q.y = p.y ∧
      (p.x = -1 → q.x = 1) ∧ (p.x ≠ -1 → q.x = p.x - 1)) ∧
    (∃ q, Balance.right_wrap p = .ok q ∧ q.y = p.y ∧
      (p.x = 1 → q.x = -1) ∧ (p.x ≠ 1 → q.x = p.x + 1)) := by
  revert p; decide

/-- Closed instance of `wrap_ops_spec`, with its conditional parts
discharged at the concrete position `Top`. -/
theorem wrap_ops_spec_witness :
    (Balance.up_wrap .Top).bind Balance.down_wrap = .ok Balance.Top ∧
    ∃ q, Balance.up_wrap .Top = .ok q ∧ q.x = Balance.x .Top ∧
      (Balance.y .Top = -1 → q.y = 1) ∧
      (Balance.y .Top ≠ -1 → q.y = Balance.y .Top - 1) :=
  ⟨(wrap_ops_spec .Top).1, (wrap_ops_spec .Top).2.1⟩

/-- C7: exactly `TopLeft` and `BottomRight` are certain; `is_true` and
`is_false` are mutually exclusive and each implies `is_certain`; and
`to_bool` fails with `UncertainValue` exactly on the non-certain values
(in particular on `Center`), returning `true` for `BottomRight` and
`false` for `TopLeft`. -/
theorem ternary_logic_spec :
    (∀ p : Balance, p.is_certain = true ↔ (p = .TopLeft ∨ p = .BottomRight)) ∧
    (∀ p : Balance, ¬(p.is_true = true ∧ p.is_false = true)) ∧
    (∀ p : Balance, p.is_true = true → p.is_certain = true) ∧
    (∀ p : Balance, p.is_false = true → p.is_certain = true) ∧
    (∀ p : Balance, p.to_bool = .error .UncertainValue ↔ ¬(p.is_certain = true)) ∧
    Balance.to_bool .Center = .error .UncertainValue ∧
    Balance.to_bool .BottomRight = .ok true ∧
    Balance.to_bool .TopLeft = .ok false := by
  decide

/-- Closed instance of `ternary_logic_spec`: `is_true` implies
`is_certain`, discharged at the concrete position `BottomRight`. -/
theorem ternary_logic_spec_witness :
    Balance.is_true .BottomRight = true ∧ Balance.is_certain .BottomRight = true :=
  ⟨by decide, ternary_logic_spec.2.2.1 .BottomRight (by decide)⟩

/-- C8: each clamped movement operator succeeds (the `InvalidCoordinate`
branch of the underlying `from_vector` call is unreachable), returns the
position unchanged at the boundary of the moved direction, and otherwise
moves exactly one step on that axis leaving the other axis unchanged. -/
theorem clamped_moves_spec (p : Balance) :
    (∃ q, Balance.up p = .ok q ∧ (p.y = -1 → q = p) ∧
      (p.y ≠ -1 → q.x = p.x ∧ q.y = p.y - 1)) ∧
    (∃ q, Balance.down p = .ok q ∧ (p.y = 1 → q = p) ∧
      (p.y ≠ 1 → q.x = p.x ∧ q.y = p.y + 1)) ∧
    (∃ q, Balance.left p = .ok q ∧ (p.x = -1 → q = p) ∧
      (p.x ≠ -1 → q.x = p.x - 1 ∧ q.y = p.y)) ∧
    (∃ q, Balance.right p = .ok q ∧ (p.x = 1 → q = p) ∧
      (p.x ≠ 1 → q.x = p.x + 1 ∧ q.y = p.y)) := by
  revert p; decide

/-- Closed instance of `clamped_moves_spec` at the concrete position
`Top`: moving up at the top boundary returns the position unchanged. -/
theorem clamped_moves_spec_witness :
    ∃ q, Balance.up .Top = .ok q ∧ (Balance.y .Top = -1 → q = Balance.Top) ∧
      (Balance.y .Top ≠ -1 → q.x = Balance.x .Top ∧ q.y = Balance.y .Top - 1) :=
  (clamped_moves_spec .Top).1

/-- C10: `each_zip` returns a path of length `min(self.len(), other.len())`
whose i-th element is `f` applied to the i-th elements of the two paths;
extra elements of the longer path are silently dropped. -/
theorem each_zip_truncates (p q : Path) (f : Balance → Balance → Balance) :
    (p.each_zip f q).len = min p.len q.len ∧
    ∀ (i : Nat) (a b : Balance), p.get i = some a → q.get i = some b →
      (p.each_zip f q).get i = some (f a b) := by
  constructor
  · simp [Path.each_zip, Path.len]
  · intro i a b h1 h2
    exact zip_map_get f p.raw q.raw i a b h1 h2

/-- Closed instance of `each_zip_truncates` at concrete unequal-length
paths: the pair at index 0 is combined, and the length is the minimum. -/
theorem each_zip_truncates_witness :
    (Path.each_zip ⟨[.Top, .Right]⟩ (fun a _ => a) ⟨[.Bottom]⟩).len =
      min (Path.len ⟨[.Top, .Right]⟩) (Path.len ⟨[.Bottom]⟩) ∧
    (Path.each_zip ⟨[.Top, .Right]⟩ (fun a _ => a) ⟨[.Bottom]⟩).get 0 =
      some ((fun (a _ : Balance) => a) .Top .Bottom) :=
  ⟨(each_zip_truncates ⟨[.Top, .Right]⟩ ⟨[.Bottom]⟩ (fun a _ => a)).1,
    (each_zip_truncates ⟨[.Top, .Right]⟩ ⟨[.Bottom]⟩ (fun a _ => a)).2 0 .Top .Bottom
      (by decide) (by decide)⟩

/-- C2: evaluation of `each_zip` at two paths of different lengths (1 and
0): the source silently truncates to the empty path instead of failing
with `LengthMismatch`, contradicting its own `# Panics` documentation. -/
theorem each_zip_mismatch_no_failure :
    Path.each_zip ⟨[.Top]⟩ (fun a _ => a) ⟨[]⟩ = ⟨[]⟩ := by
  decide

/-- C3: for every pair in the `i8` range, `Path::from_vector` terminates
successfully, the resulting path sums back to the input vector under
`to_vector`, and its length is `max(|x|, |y|)`. -/
theorem from_vector_round_trip (x y : Int)
    (hx1 : -128 ≤ x) (hx2 : x ≤ 127) (hy1 : -128 ≤ y) (hy2 : y ≤ 127) :
    ∃ p : Path, Path.from_vector x y = .ok p ∧ p.to_vector = (x, y) ∧
      p.len = max x.natAbs y.natAbs := by
  obtain ⟨p, h1, h2, _, h4⟩ := from_vector_path_spec x y hx1 hx2 hy1 hy2
  exact ⟨p, h1, h2, h4⟩

/-- Closed instance of `from_vector_round_trip` at the concrete vector
`(3, -2)`. -/
theorem from_vector_round_trip_witness :
    (-128 ≤ (3 : Int) ∧ (3 : Int) ≤ 127 ∧ -128 ≤ (-2 : Int) ∧ (-2 : Int) ≤ 127) ∧
    ∃ p : Path, Path.from_vector 3 (-2) = .ok p ∧ p.to_vector = (3, -2) ∧
      p.len = max (3 : Int).natAbs (-2 : Int).natAbs :=
  ⟨by decide,
    from_vector_round_trip 3 (-2) (by decide) (by decide) (by decide) (by decide)⟩

/-- Result of the wrapping `to_vector` accumulation always lies in the
`i8` range, from any in-range starting accumulator. -/
theorem to_vector_range (p : Path) :
    ∃ x y, p.to_vector = (x, y) ∧
      -128 ≤ x ∧ x ≤ 127 ∧ -128 ≤ y ∧ y ≤ 127 := by
  suffices h : ∀ (l : List Balance) (a b : Int),
      -128 ≤ a → a ≤ 127 → -128 ≤ b → b ≤ 127 →
      ∃ x y, l.foldl (fun acc movement =>
          (wrapI8 (acc.1 + movement.x), wrapI8 (acc.2 + movement.y))) (a, b)
        = (x, y) ∧ -128 ≤ x ∧ x ≤ 127 ∧ -128 ≤ y ∧ y ≤ 127 by
    exact h p.raw 0 0 (by omega) (by omega) (by omega) (by omega)
  intro l
  induction l with
  | nil =>
    intro a b h1 h2 h3 h4
    exact ⟨a, b, by simp, h1, h2, h3, h4⟩
  | cons m rest ih =>
    intro a b _ _ _ _
    rw [List.foldl_cons]
    have hx := wrapI8_range (a + m.x)
    have hy := wrapI8_range (b + m.y)
    exact ih (wrapI8 (a + m.x)) (wrapI8 (b + m.y)) hx.1 hx.2 hy.1 hy.2

/-- A successful run of the checked `to_vector` accumulation, started
in range, ends in range (every partial sum is checked). -/
theorem toVectorCheckedLoop_ok_range :
    ∀ (l : List Balance) (a b x y : Int),
      -128 ≤ a → a ≤ 127 → -128 ≤ b → b ≤ 127 →
      Path.toVectorCheckedLoop l a b = .ok (x, y) →
      -128 ≤ x ∧ x ≤ 127 ∧ -128 ≤ y ∧ y ≤ 127 := by
  intro l
  induction l with
  | nil =>
    intro a b x y h1 h2 h3 h4 h
    rw [Path.toVectorCheckedLoop] at h
    injection h with h'
    injection h' with hx hy
    subst hx; subst hy
    exact ⟨h1, h2, h3, h4⟩
  | cons m rest ih =>
    intro a b x y _ _ _ _ h
    rw [Path.toVectorCheckedLoop] at h
    by_cases hc : -128 ≤ a + m.x ∧ a + m.x ≤ 127 ∧ -128 ≤ b + m.y ∧ b + m.y ≤ 127
    · rw [if_pos hc] at h
      exact ih (a + m.x) (b + m.y) x y hc.1 hc.2.1 hc.2.2.1 hc.2.2.2 h
    · rw [if_neg hc] at h
      exact Except.noConfusion h

/-- C9: normalization of a path is idempotent: normalizing an already
normalized path returns it unchanged — in both integer-overflow profiles
of the source's `i8` accumulator in `to_vector` (wrapping, as in an
unchecked build, and panicking, as in an overflow-checked build). -/
theorem normalized_idempotent (p : Path) :
    p.normalized.bind Path.normalized = p.normalized ∧
    p.normalized_checked.bind Path.normalized_checked = p.normalized_checked := by
  constructor
  · obtain ⟨a, b, hv, ha1, ha2, hb1, hb2⟩ := to_vector_range p
    obtain ⟨q, hq, hqv, _, _⟩ := from_vector_path_spec a b ha1 ha2 hb1 hb2
    have h1 : p.normalized = .ok q := by
      rw [Path.normalized, hv]
      exact hq
    have h2 : q.normalized = .ok q := by
      rw [Path.normalized, hqv]
      exact hq
    rw [h1]
    simpa [Except.bind] using h2
  · rcases hc : p.to_vector_checked with e | v
    · have h1 : p.normalized_checked = .error e := by
        rw [Path.normalized_checked, hc]
        rfl
      rw [h1]
      rfl
    · obtain ⟨a, b⟩ := v
      have hr := toVectorCheckedLoop_ok_range p.raw 0 0 a b
        (by omega) (by omega) (by omega) (by omega) hc
      obtain ⟨q, hq, _, hqc, _⟩ :=
        from_vector_path_spec a b hr.1 hr.2.1 hr.2.2.1 hr.2.2.2
      have h1 : p.normalized_checked = .ok q := by
        rw [Path.normalized_checked, hc]
        simpa [Except.bind] using hq
      have h2 : q.normalized_checked = .ok q := by
        rw [Path.normalized_checked, hqc]
        simpa [Except.bind] using hq
      rw [h1]
      simpa [Except.bind] using h2

/-- C4: round trips on the nine positions: `from_vector ∘ to_vector` and
`from_value ∘ to_value` are the identity everywhere, and
`from_angle ∘ to_angle` is the identity away from `Center`. -/
theorem conversion_round_trips :
    (∀ p : Balance, Balance.from_vector p.to_vector.1 p.to_vector.2 = .ok p) ∧
    (∀ p : Balance, Balance.from_value p.to_value = .ok p) ∧
    ∀ p : Balance, p ≠ .Center →
      (Balance.to_angle p).bind Balance.from_angle = .ok p := by
  refine ⟨by decide, by decide, ?_⟩
  intro p hp
  cases p <;>
    simp only [Balance.to_angle, Except.bind] <;>
    first
      | exact absurd rfl hp
      | (unfold Balance.from_angle fmod360 truncQ
         norm_num [Int.ceil_neg, Balance.EAST, Balance.NORTH_EAST, Balance.NORTH,
           Balance.NORTH_WEST, Balance.WEST, Balance.SOUTH_WEST, Balance.SOUTH,
           Balance.SOUTH_EAST])

/-- Closed instance of `conversion_round_trips` with the non-`Center`
hypothesis discharged at the concrete position `Top`. -/
theorem conversion_round_trips_witness :
    Balance.Top ≠ Balance.Center ∧
    (Balance.to_angle .Top).bind Balance.from_angle = .ok Balance.Top :=
  ⟨by decide, conversion_round_trips.2.2 .Top (by decide)⟩

/-- C1 counterexample: at input angle `-180`, the normalization described
by the claim lands on `180`, which is exactly the canonical angle of
`Left` (so the claim requires `from_angle(-180) == Left`), yet the source
fails with `InvalidAngle`; the claim's own example `270 → -90` is also
checked against the claimed normalization. -/
theorem from_angle_claim_counterexample :
    specNormalize (-180) = 180 ∧ specNormalize 270 = -90 ∧
    Balance.to_angle .Left = .ok 180 ∧
    Balance.from_angle (-180) = .error .InvalidAngle := by
  refine ⟨?_, ?_, ?_, ?_⟩
  · unfold specNormalize
    rw [show ((-180 : ℚ) - 180) / 360 = ((-1 : Int) : ℚ) by norm_num,
      Int.ceil_intCast]
    norm_num
  · have h14 : (⌈(1/4 : ℚ)⌉ : Int) = 1 := by
      rw [Int.ceil_eq_iff] <;> norm_num
    unfold specNormalize
    rw [show ((270 : ℚ) - 180) / 360 = 1/4 by norm_num, h14]
    norm_num
  · rfl
  · unfold Balance.from_angle fmod360 truncQ
    norm_num [Int.ceil_neg, Balance.EAST, Balance.NORTH_EAST, Balance.NORTH,
      Balance.NORTH_WEST, Balance.WEST, Balance.SOUTH_WEST, Balance.SOUTH,
      Balance.SOUTH_EAST]

/-- C1 as amended: `from_angle` normalizes by the sign-preserving
remainder modulo 360 with remainders above 180 folded down by 360 (the
interval `(-360, 180]`, not the claimed `(-180, 180]`); it returns the
position whose canonical `to_angle` equals that normalized value exactly,
and fails with `InvalidAngle` exactly when no position has that canonical
angle. -/
theorem from_angle_amended (a : ℚ) :
    (∃ p, Balance.from_angle a = .ok p ∧
      Balance.to_angle p = .ok (codeNormalize a)) ∨
    (Balance.from_angle a = .error .InvalidAngle ∧
      ∀ p, Balance.to_angle p ≠ .ok (codeNormalize a)) := by
  have hfa : Balance.from_angle a =
      (if codeNormalize a = Balance.EAST then .ok .Right
       else if codeNormalize a = Balance.NORTH_EAST then .ok .TopRight
       else if codeNormalize a = Balance.NORTH then .ok .Top
       else if codeNormalize a = Balance.NORTH_WEST then .ok .TopLeft
       else if codeNormalize a = Balance.WEST then .ok .Left
       else if codeNormalize a = Balance.SOUTH_WEST then .ok .BottomLeft
       else if codeNormalize a = Balance.SOUTH then .ok .Bottom
       else if codeNormalize a = Balance.SOUTH_EAST then .ok .BottomRight
       else .error .InvalidAngle) := rfl
  rw [hfa]
  split_ifs with h1 h2 h3 h4 h5 h6 h7 h8
  · exact Or.inl ⟨.Right, rfl, by simp [Balance.to_angle, h1]⟩
  · exact Or.inl ⟨.TopRight, rfl, by simp [Balance.to_angle, h2]⟩
  · exact Or.inl ⟨.Top, rfl, by simp [Balance.to_angle, h3]⟩
  · exact Or.inl ⟨.TopLeft, rfl, by simp [Balance.to_angle, h4]⟩
  · exact Or.inl ⟨.Left, rfl, by simp [Balance.to_angle, h5]⟩
  · exact Or.inl ⟨.BottomLeft, rfl, by simp [Balance.to_angle, h6]⟩
  · exact Or.inl ⟨.Bottom, rfl, by simp [Balance.to_angle, h7]⟩
  · exact Or.inl ⟨.BottomRight, rfl, by simp [Balance.to_angle, h8]⟩
  · refine Or.inr ⟨rfl, ?_⟩
    intro p
    cases p <;> simp only [Balance.to_angle] <;> intro h
    · exact h4 (by injection h with h; exact h.symm)
    · exact h3 (by injection h with h; exact h.symm)
    · exact h2 (by injection h with h; exact h.symm)
    · exact h5 (by injection h with h; exact h.symm)
    · exact Except.noConfusion h
    · exact h1 (by injection h with h; exact h.symm)
    · exact h6 (by injection h with h; exact h.symm)
    · exact h7 (by injection h with h; exact h.symm)
    · exact h8 (by injection h with h; exact h.symm)

/-- Closed instance of `from_angle_amended` at the concrete angle `270`. -/
theorem from_angle_amended_witness :
    (∃ p, Balance.from_angle 270 = .ok p ∧
      Balance.to_angle p = .ok (codeNormalize 270)) ∨
    (Balance.from_angle 270 = .error .InvalidAngle ∧
      ∀ p, Balance.to_angle p ≠ .ok (codeNormalize 270)) :=
  from_angle_amended 270

/-- Closed instance of `add_clamps` at the concrete pair
`(Right, Right)`. -/
theorem add_clamps_witness :
    ∃ r, Balance.add .Right .Right = .ok r ∧
      r.x = iclamp (Balance.x .Right + Balance.x .Right) (-1) 1 ∧
      r.y = iclamp (Balance.y .Right + Balance.y .Right) (-1) 1 ∧
      (r.x = -1 ∨ r.x = 0 ∨ r.x = 1) ∧ (r.y = -1 ∨ r.y = 0 ∨ r.y = 1) ∧
      Balance.add .Right .Right = .ok .Right :=
  add_clamps .Right .Right

/-- Closed instance of `normalized_idempotent` at a concrete path with
cancelling steps, in both overflow profiles. -/
theorem normalized_idempotent_witness :
    (Path.normalized ⟨[.Top, .Bottom, .Right]⟩).bind Path.normalized =
      Path.normalized ⟨[.Top, .Bottom, .Right]⟩ ∧
    (Path.normalized_checked ⟨[.Top, .Bottom, .Right]⟩).bind
        Path.normalized_checked =
      Path.normalized_checked ⟨[.Top, .Bottom, .Right]⟩ :=
  normalized_idempotent ⟨[.Top, .Bottom, .Right]⟩
